import Mathlib

/-!
Shallow embedding of the `validate_hierarchy` repository core:
`src/utils/similarity_utils.py` (SimilarityCalculator), `src/config.py`,
`src/validator_backup.py` (the operative `validate_relationships`), and
`src/validator.py` (the variant whose suggestion call is broken).

Vectors are lists of rationals (exact values of the machine floats);
similarity scores live in the reals.  A missing embedding (Python `None`)
is `Option.none`; Python exceptions are modelled with `Except String`.
-/

namespace ValidateHierarchy

/-- An embedding vector: a fixed-length numeric vector. -/
abbrev Vec := List ℚ

/-- A possibly-absent embedding (`None` in Python). -/
abbrev Emb := Option Vec

/-- Dot product of two vectors (`numpy` dot on aligned vectors). -/
def dotQ (a b : Vec) : ℚ := (List.zipWith (fun x y => x * y) a b).sum

/-- Squared Euclidean norm of a vector. -/
def normSq (a : Vec) : ℚ := dotQ a a

/-- Cosine similarity, `dot(a,b) / (sqrt(dot(a,a)) * sqrt(dot(b,b)))`.
With a zero vector the denominator is `0` and real division yields `0`,
matching the guarded behaviour of `sklearn.cosine_similarity` (zero norms
are treated so the result is `0.0`, never a division error). -/
noncomputable def cosineSim (a b : Vec) : ℝ :=
  ((dotQ a b : ℚ) : ℝ) / (Real.sqrt ((normSq a : ℚ) : ℝ) * Real.sqrt ((normSq b : ℚ) : ℝ))

/-- `SimilarityCalculator.calculate_similarity`: returns `0.0` when either
embedding is `None`, otherwise the cosine similarity. -/
noncomputable def calculate_similarity (embedding1 embedding2 : Emb) : ℝ :=
  match embedding1, embedding2 with
  | none, _ => 0
  | _, none => 0
  | some a, some b => cosineSim a b

/-- One input record (a JSON object); absent fields are `none`, mirroring
`dict.get`.  The field `parnet_key` keeps the spelling used by the source. -/
structure NodeRecord where
  root_key : Option String
  root_name : Option String
  root_description : Option String
  parnet_key : Option String
  parent_name : Option String
  parent_short_summary : Option String
deriving Repr, DecidableEq

/-- Python truthiness of `item.get('parent_name')`: present and non-empty. -/
def hasParent (item : NodeRecord) : Bool :=
  match item.parent_name with
  | none => false
  | some s => !(s == "")

/-- One entry of the similarity list built by `find_top_matches`:
`(similarity_score, index, candidate_data)`. -/
abbrev SimEntry := ℝ × ℕ × NodeRecord

/-- Insert an element into a score-descending list, after every element of
score greater than or equal to its own (the position a stable descending
sort gives to a later-arriving element). -/
noncomputable def insertDesc (x : SimEntry) : List SimEntry → List SimEntry
  | [] => [x]
  | y :: ys => if y.1 ≥ x.1 then y :: insertDesc x ys else x :: y :: ys

/-- Python `list.sort(reverse=True, key=lambda x: x[0])`: a stable sort by
score descending (ties keep their original relative order). -/
noncomputable def sortDescBy (l : List SimEntry) : List SimEntry :=
  l.foldl (fun acc x => insertDesc x acc) []

/-- Python `enumerate` starting at `n`. -/
def enumFromN (n : ℕ) : List α → List (ℕ × α)
  | [] => []
  | x :: xs => (n, x) :: enumFromN (n + 1) xs

/-- Python `enumerate`. -/
def enumerate (l : List α) : List (ℕ × α) := enumFromN 0 l

/-- Default `top_n` of `SimilarityCalculator.find_top_matches`. -/
def find_top_matches_default_top_n : ℕ := 3

/-- Default `threshold` of `SimilarityCalculator.find_top_matches`. -/
noncomputable def find_top_matches_default_threshold : ℝ := 0.6

/-- `config.SIMILARITY_THRESHOLD`. -/
noncomputable def SIMILARITY_THRESHOLD : ℝ := 0.65

/-- `config.TOP_N_SUGGESTIONS`. -/
def TOP_N_SUGGESTIONS : ℕ := 3

/-- `SimilarityCalculator.find_top_matches`: score each candidate whose
embedding is not `None` against the target, keep those with score at least
`threshold`, sort by score descending (stable), and truncate to `top_n`. -/
noncomputable def find_top_matches (target_embedding : Emb)
    (candidate_embeddings : List Emb) (candidate_data : List NodeRecord)
    (top_n : ℕ) (threshold : ℝ) : List SimEntry :=
  let similarities :=
    (enumerate (candidate_embeddings.zip candidate_data)).filterMap
      (fun p =>
        match p.2.1 with
        | none => none
        | some v =>
          let sim := calculate_similarity target_embedding (some v)
          if sim ≥ threshold then some (sim, p.1, p.2.2) else none)
  (sortDescBy similarities).take top_n

/-- The embedding table: one root vector and one parent vector per record
index (an entry may itself be `None`). -/
structure Embeddings where
  root : List Emb
  parent : List Emb

/-- One suggested alternative parent in a validation result. -/
structure Suggestion where
  parent_key : Option String
  parent_name : Option String
  similarity_score : ℝ

/-- The `current_parent` part of a validation result. -/
structure CurrentParent where
  parent_key : Option String
  parent_name : Option String
  similarity_score : ℝ

/-- One validation result, as built by
`validator_backup.ParentChildValidator.validate_relationships`. -/
structure ValidationResult where
  root_key : Option String
  root_name : Option String
  current_parent : CurrentParent
  suggested_parents : List Suggestion
  validation : String
  validation_status : String

/-- Indexing into an embedding list; out of range is a Python `IndexError`. -/
def getEmb (l : List Emb) (i : ℕ) : Except String Emb :=
  match l.get? i with
  | some e => Except.ok e
  | none => Except.error "IndexError"

/-- The candidate pool with payloads:
`[(i, x) for i, x in enumerate(data) if x.get('parent_name') and i != idx]`. -/
def candidates (data : List NodeRecord) (idx : ℕ) : List (ℕ × NodeRecord) :=
  (enumerate data).filter (fun p => hasParent p.2 && p.1 != idx)

/-- `all_parent_indices`: the indices of the candidate pool. -/
def candidateIndices (data : List NodeRecord) (idx : ℕ) : List ℕ :=
  (candidates data idx).map Prod.fst

/-- Evaluate a fallible function over a list, failing at the first error
(the evaluation order of a Python list comprehension). -/
def mapExcept (f : α → Except String β) : List α → Except String (List β)
  | [] => Except.ok []
  | x :: xs => do
    let y ← f x
    let ys ← mapExcept f xs
    pure (y :: ys)

/-- Build one suggestion from a ranked match:
`parent_data = parent_candidates[match_idx]` then take its key and name. -/
def mkSuggestion (parent_candidates : List NodeRecord) (t : SimEntry) :
    Except String Suggestion :=
  match parent_candidates.get? t.2.1 with
  | some parent_data =>
    Except.ok ⟨parent_data.parnet_key, parent_data.parent_name, t.1⟩
  | none => Except.error "IndexError"

/-- The body of the `validate_relationships` loop of `validator_backup.py`
for one record that has a parent. -/
noncomputable def validateItem (data : List NodeRecord) (embeddings : Embeddings)
    (similarity_threshold : ℝ) (idx : ℕ) (item : NodeRecord) :
    Except String ValidationResult := do
  let root_embedding ← getEmb embeddings.root idx
  let parent_embedding ← getEmb embeddings.parent idx
  let similarity_score := calculate_similarity root_embedding parent_embedding
  let parent_candidates := (candidates data idx).map Prod.snd
  let parent_candidate_embeddings ←
    mapExcept (fun p => getEmb embeddings.parent p.1) (candidates data idx)
  let best_matches := find_top_matches root_embedding parent_candidate_embeddings
    parent_candidates find_top_matches_default_top_n similarity_threshold
  let suggestions ← mapExcept (mkSuggestion parent_candidates) best_matches
  pure
    { root_key := item.root_key
      root_name := item.root_name
      current_parent := ⟨item.parnet_key, item.parent_name, similarity_score⟩
      suggested_parents := suggestions
      validation := if similarity_score ≥ similarity_threshold then "VALID" else "INVALID"
      validation_status := if similarity_score ≥ similarity_threshold then "PASS" else "FAIL" }

/-- The `validate_relationships` loop over the enumerated records: records
with no parent are skipped, the rest produce one result each. -/
noncomputable def validateAux (data : List NodeRecord) (embeddings : Embeddings)
    (similarity_threshold : ℝ) :
    List (ℕ × NodeRecord) → Except String (List ValidationResult)
  | [] => Except.ok []
  | (idx, item) :: rest =>
    if hasParent item then do
      let r ← validateItem data embeddings similarity_threshold idx item
      let rs ← validateAux data embeddings similarity_threshold rest
      pure (r :: rs)
    else validateAux data embeddings similarity_threshold rest

/-- Default of the `similarity_threshold` parameter of
`validator_backup.ParentChildValidator.validate_relationships`. -/
noncomputable def validate_default_similarity_threshold : ℝ := 0.6

/-- `validator_backup.ParentChildValidator.validate_relationships`. -/
noncomputable def validate_relationships (data : List NodeRecord)
    (embeddings : Embeddings) (similarity_threshold : ℝ) :
    Except String (List ValidationResult) :=
  validateAux data embeddings similarity_threshold (enumerate data)

/-- Error message of the broken suggestion call in `validator.py`. -/
def find_best_matches_error : String :=
  "AttributeError: SimilarityCalculator object has no attribute find_best_matches"

/-- The body of the `validate_relationships` loop of `validator.py` for one
record that has a parent.  After computing the current score and the
candidate pool it calls `self.similarity_calculator.find_best_matches`,
an attribute the active `SimilarityCalculator` class does not define (only
the commented-out class did), so the call raises `AttributeError`. -/
noncomputable def validateItemV1 (data : List NodeRecord) (embeddings : Embeddings)
    (idx : ℕ) (_item : NodeRecord) : Except String ValidationResult := do
  let root_embedding ← getEmb embeddings.root idx
  let parent_embedding ← getEmb embeddings.parent idx
  let _similarity_score := calculate_similarity root_embedding parent_embedding
  let _parent_candidate_embeddings ←
    mapExcept (fun p => getEmb embeddings.parent p.1) (candidates data idx)
  Except.error find_best_matches_error

/-- The loop of `validator.py::validate_relationships`. -/
noncomputable def validateAuxV1 (data : List NodeRecord) (embeddings : Embeddings) :
    List (ℕ × NodeRecord) → Except String (List ValidationResult)
  | [] => Except.ok []
  | (idx, item) :: rest =>
    if hasParent item then do
      let r ← validateItemV1 data embeddings idx item
      let rs ← validateAuxV1 data embeddings rest
      pure (r :: rs)
    else validateAuxV1 data embeddings rest

/-- `validator.ParentChildValidator.validate_relationships` (the variant that
reaches the missing `find_best_matches` attribute). -/
noncomputable def validate_relationships_v1 (data : List NodeRecord)
    (embeddings : Embeddings) : Except String (List ValidationResult) :=
  validateAuxV1 data embeddings (enumerate data)

/-! ### Basic lemmas about the monadic plumbing -/

@[simp] theorem ok_bind (a : α) (f : α → Except String β) :
    (Except.ok a >>= f) = f a := rfl

@[simp] theorem error_bind (e : String) (f : α → Except String β) :
    ((Except.error e : Except String α) >>= f) = Except.error e := rfl

@[simp] theorem pure_eq_ok (a : α) : (pure a : Except String α) = Except.ok a := rfl

/-! ### Basic lemmas about the similarity scorer -/

theorem dotQ_self_nonneg (a : Vec) : 0 ≤ dotQ a a := by
  induction a with
  | nil => simp [dotQ]
  | cons x xs ih =>
    simp only [dotQ, List.zipWith_cons_cons, List.sum_cons] at *
    have := mul_self_nonneg x
    linarith

theorem normSq_nonneg (a : Vec) : 0 ≤ normSq a := dotQ_self_nonneg a

theorem calculate_similarity_none_left (e : Emb) :
    calculate_similarity none e = 0 := by
  cases e <;> rfl

theorem calculate_similarity_none_right (a : Vec) :
    calculate_similarity (some a) none = 0 := rfl

theorem calculate_similarity_some (a b : Vec) :
    calculate_similarity (some a) (some b) = cosineSim a b := rfl

theorem cosineSim_self_of_normSq_ne_zero (a : Vec) (h : normSq a ≠ 0) :
    cosineSim a a = 1 := by
  have hnn : (0 : ℝ) ≤ ((normSq a : ℚ) : ℝ) := by
    exact_mod_cast normSq_nonneg a
  have hda : dotQ a a = normSq a := rfl
  have hne : ((normSq a : ℚ) : ℝ) ≠ 0 := by exact_mod_cast h
  rw [cosineSim, hda, Real.mul_self_sqrt hnn, div_self hne]

theorem cosineSim_self_of_normSq_eq_zero (a : Vec) (h : normSq a = 0) :
    cosineSim a a = 0 := by
  have hda : dotQ a a = normSq a := rfl
  rw [cosineSim, hda, h]
  simp

/-- Evaluation helper: when the rational dot product and the two squared
norms are known and the norms are perfect squares, the cosine is the
corresponding rational value. -/
theorem cosineSim_eval (a b : Vec) (d n1 n2 : ℚ) (hd : dotQ a b = d)
    (h1 : normSq a = n1 * n1) (h2 : normSq b = n2 * n2)
    (hn1 : 0 ≤ n1) (hn2 : 0 ≤ n2) :
    cosineSim a b = (d : ℝ) / ((n1 : ℝ) * (n2 : ℝ)) := by
  have c1 : ((normSq a : ℚ) : ℝ) = (n1 : ℝ) * (n1 : ℝ) := by
    rw [h1]; push_cast; ring
  have c2 : ((normSq b : ℚ) : ℝ) = (n2 : ℝ) * (n2 : ℝ) := by
    rw [h2]; push_cast; ring
  have s1 : Real.sqrt ((normSq a : ℚ) : ℝ) = (n1 : ℝ) := by
    rw [c1, Real.sqrt_mul_self (by exact_mod_cast hn1)]
  have s2 : Real.sqrt ((normSq b : ℚ) : ℝ) = (n2 : ℝ) := by
    rw [c2, Real.sqrt_mul_self (by exact_mod_cast hn2)]
  rw [cosineSim, hd, s1, s2]

/-- A similarity score of a pair of present embeddings that is not `0`
forces both embeddings to be present. -/
theorem calculate_similarity_ne_zero (e1 e2 : Emb) (h : calculate_similarity e1 e2 ≠ 0) :
    ∃ a b, e1 = some a ∧ e2 = some b := by
  match e1, e2 with
  | none, e2 => exact absurd (calculate_similarity_none_left e2) h
  | some a, none => exact absurd rfl h
  | some a, some b => exact ⟨a, b, rfl, rfl⟩

/-! ### Lemmas about `enumerate` -/

theorem mem_enumFromN_snd {p : ℕ × α} {n : ℕ} {l : List α}
    (h : p ∈ enumFromN n l) : p.2 ∈ l := by
  induction l generalizing n with
  | nil => simp [enumFromN] at h
  | cons x xs ih =>
    simp only [enumFromN, List.mem_cons] at h ⊢
    rcases h with h | h
    · left; rw [h]
    · right; exact ih h

theorem mem_enumFromN_ge {p : ℕ × α} {n : ℕ} {l : List α}
    (h : p ∈ enumFromN n l) : n ≤ p.1 := by
  induction l generalizing n with
  | nil => simp [enumFromN] at h
  | cons x xs ih =>
    simp only [enumFromN, List.mem_cons] at h
    rcases h with h | h
    · rw [h]
    · exact le_trans (Nat.le_succ n) (ih h)

theorem mem_enumFromN_iff {p : ℕ × α} {n : ℕ} {l : List α} :
    p ∈ enumFromN n l ↔ ∃ k, p.1 = n + k ∧ l.get? k = some p.2 := by
  induction l generalizing n with
  | nil => simp [enumFromN]
  | cons x xs ih =>
    simp only [enumFromN, List.mem_cons, ih]
    constructor
    · rintro (h | ⟨k, hk, hg⟩)
      · exact ⟨0, by simp [h], by simp [h]⟩
      · exact ⟨k + 1, by omega, hg⟩
    · rintro ⟨k, hk, hg⟩
      cases k with
      | zero =>
        left
        simp only [List.get?_cons_zero, Option.some.injEq] at hg
        obtain ⟨p1, p2⟩ := p
        simp only at hk hg
        simp [hk, hg]
      | succ m =>
        right
        exact ⟨m, by omega, hg⟩

theorem mem_enumerate_iff {p : ℕ × α} {l : List α} :
    p ∈ enumerate l ↔ l.get? p.1 = some p.2 := by
  rw [enumerate, mem_enumFromN_iff]
  constructor
  · rintro ⟨k, hk, hg⟩; rwa [hk, Nat.zero_add]
  · intro h; exact ⟨p.1, by omega, h⟩

/-! ### Lemmas about the stable descending sort -/

/-- The order established by the stable descending sort on entries carrying
their original index: strictly larger score first, and for equal scores the
smaller original index first. -/
def rankOrder (a b : SimEntry) : Prop :=
  b.1 < a.1 ∨ (a.1 = b.1 ∧ a.2.1 < b.2.1)

theorem mem_insertDesc {x y : SimEntry} {l : List SimEntry} :
    y ∈ insertDesc x l ↔ y = x ∨ y ∈ l := by
  induction l with
  | nil => simp [insertDesc]
  | cons z zs ih =>
    rw [insertDesc]
    by_cases h : z.1 ≥ x.1
    · rw [if_pos h]
      simp only [List.mem_cons, ih]
      tauto
    · rw [if_neg h]
      simp only [List.mem_cons]

theorem insertDesc_pairwise {x : SimEntry} {l : List SimEntry}
    (hl : List.Pairwise rankOrder l) (hidx : ∀ a ∈ l, a.2.1 < x.2.1) :
    List.Pairwise rankOrder (insertDesc x l) := by
  induction l with
  | nil => simp [insertDesc]
  | cons y ys ih =>
    rw [List.pairwise_cons] at hl
    obtain ⟨hy, hys⟩ := hl
    rw [insertDesc]
    by_cases h : y.1 ≥ x.1
    · rw [if_pos h]
      rw [List.pairwise_cons]
      refine ⟨?_, ih hys (fun a ha => hidx a (List.mem_cons_of_mem y ha))⟩
      intro z hz
      rcases mem_insertDesc.mp hz with hzx | hzys
      · subst hzx
        rcases lt_or_eq_of_le h with hlt | heq
        · exact Or.inl hlt
        · exact Or.inr ⟨heq.symm, hidx y (List.mem_cons_self y ys)⟩
      · exact hy z hzys
    · rw [if_neg h]
      push_neg at h
      rw [List.pairwise_cons]
      refine ⟨?_, List.pairwise_cons.mpr ⟨hy, hys⟩⟩
      intro z hz
      rcases List.mem_cons.mp hz with hzy | hzys
      · subst hzy; exact Or.inl h
      · rcases hy z hzys with hlt | ⟨heq, _⟩
        · exact Or.inl (lt_trans hlt h)
        · exact Or.inl (heq ▸ h)

theorem foldl_insertDesc_mem {l : List SimEntry} {acc : List SimEntry} {y : SimEntry} :
    y ∈ l.foldl (fun acc x => insertDesc x acc) acc ↔ y ∈ acc ∨ y ∈ l := by
  induction l generalizing acc with
  | nil => simp
  | cons x xs ih =>
    rw [List.foldl_cons, ih, mem_insertDesc]
    simp only [List.mem_cons]
    tauto

theorem mem_sortDescBy {l : List SimEntry} {y : SimEntry} :
    y ∈ sortDescBy l ↔ y ∈ l := by
  rw [sortDescBy, foldl_insertDesc_mem]
  simp

theorem foldl_insertDesc_pairwise {l : List SimEntry} {acc : List SimEntry}
    (hacc : List.Pairwise rankOrder acc)
    (hl : List.Pairwise (fun a b => a.2.1 < b.2.1) l)
    (hcross : ∀ a ∈ acc, ∀ b ∈ l, a.2.1 < b.2.1) :
    List.Pairwise rankOrder (l.foldl (fun acc x => insertDesc x acc) acc) := by
  induction l generalizing acc with
  | nil => simpa using hacc
  | cons x xs ih =>
    rw [List.pairwise_cons] at hl
    obtain ⟨hx, hxs⟩ := hl
    rw [List.foldl_cons]
    refine ih ?_ hxs ?_
    · exact insertDesc_pairwise hacc
        (fun a ha => hcross a ha x (List.mem_cons_self x xs))
    · intro a ha b hb
      rcases mem_insertDesc.mp ha with hax | haacc
      · subst hax; exact hx b hb
      · exact hcross a haacc b (List.mem_cons_of_mem x hb)

theorem sortDescBy_pairwise {l : List SimEntry}
    (h : List.Pairwise (fun a b => a.2.1 < b.2.1) l) :
    List.Pairwise rankOrder (sortDescBy l) := by
  rw [sortDescBy]
  exact foldl_insertDesc_pairwise List.Pairwise.nil h (by simp)

/-! ### Lemmas about the candidate ranker -/

theorem zip_get?_eq {l1 : List α} {l2 : List β} {i : ℕ} {ab : α × β}
    (h : (l1.zip l2).get? i = some ab) :
    l1.get? i = some ab.1 ∧ l2.get? i = some ab.2 := by
  induction l1 generalizing l2 i with
  | nil => simp [List.zip] at h
  | cons x xs ih =>
    cases l2 with
    | nil => simp [List.zip] at h
    | cons y ys =>
      cases i with
      | zero =>
        simp only [List.zip_cons_cons, List.get?_cons_zero, Option.some.injEq] at h
        simp [← h]
      | succ m =>
        simp only [List.zip_cons_cons, List.get?_cons_succ] at h ⊢
        exact ih h

/-- Full characterization of a ranked entry: its index points at a present
candidate embedding and at its payload, its score is the similarity of the
target with that embedding, and the score clears the threshold. -/
theorem find_top_matches_mem {target : Emb} {cembs : List Emb}
    {cdata : List NodeRecord} {top_n : ℕ} {thr : ℝ} {t : SimEntry}
    (h : t ∈ find_top_matches target cembs cdata top_n thr) :
    ∃ v, cembs.get? t.2.1 = some (some v) ∧ cdata.get? t.2.1 = some t.2.2 ∧
      t.1 = calculate_similarity target (some v) ∧ t.1 ≥ thr := by
  simp only [find_top_matches] at h
  have hmem : t ∈ sortDescBy ((enumerate (cembs.zip cdata)).filterMap
      (fun p =>
        match p.2.1 with
        | none => none
        | some v =>
          let sim := calculate_similarity target (some v)
          if sim ≥ thr then some (sim, p.1, p.2.2) else none)) :=
    (List.take_sublist _ _).subset h
  rw [mem_sortDescBy, List.mem_filterMap] at hmem
  obtain ⟨p, hp, hfp⟩ := hmem
  rw [mem_enumerate_iff] at hp
  obtain ⟨hz1, hz2⟩ := zip_get?_eq hp
  match hv : p.2.1 with
  | none => rw [hv] at hfp; simp at hfp
  | some v =>
    rw [hv] at hfp
    simp only at hfp
    by_cases hc : calculate_similarity target (some v) ≥ thr
    · rw [if_pos hc, Option.some.injEq] at hfp
      refine ⟨v, ?_, ?_, ?_, ?_⟩
      · rw [← hfp]; rw [hv] at hz1; exact hz1
      · rw [← hfp]; exact hz2
      · rw [← hfp]
      · rw [← hfp]; exact hc
    · rw [if_neg hc] at hfp
      exact absurd hfp (by simp)

theorem find_top_matches_length_le (target : Emb) (cembs : List Emb)
    (cdata : List NodeRecord) (top_n : ℕ) (thr : ℝ) :
    (find_top_matches target cembs cdata top_n thr).length ≤ top_n := by
  simp only [find_top_matches]
  rw [List.length_take]
  exact min_le_left _ _

theorem find_top_matches_top_n_zero (target : Emb) (cembs : List Emb)
    (cdata : List NodeRecord) (thr : ℝ) :
    find_top_matches target cembs cdata 0 thr = [] := by
  simp [find_top_matches]

theorem find_top_matches_eq_nil_of_below {target : Emb} {cembs : List Emb}
    {cdata : List NodeRecord} {top_n : ℕ} {thr : ℝ}
    (h : ∀ e ∈ cembs, calculate_similarity target e < thr) :
    find_top_matches target cembs cdata top_n thr = [] := by
  simp only [find_top_matches]
  have hnil : (enumerate (cembs.zip cdata)).filterMap
      (fun p =>
        match p.2.1 with
        | none => none
        | some v =>
          let sim := calculate_similarity target (some v)
          if sim ≥ thr then some (sim, p.1, p.2.2) else none) = [] := by
    rw [List.filterMap_eq_nil_iff]
    intro p hp
    have hsnd : p.2 ∈ cembs.zip cdata := mem_enumFromN_snd hp
    match hv : p.2.1 with
    | none => simp
    | some v =>
      have hmem : (p.2.1, p.2.2) ∈ cembs.zip cdata := by
        rw [Prod.mk.eta]; exact hsnd
      rw [hv] at hmem
      have he : (some v) ∈ cembs := (List.of_mem_zip hmem).1
      have hlt := h (some v) he
      simp only
      rw [if_neg (not_le.mpr hlt)]
  rw [hnil]
  simp [sortDescBy]

theorem filterMap_enumFromN_idx {f : ℕ × (Emb × NodeRecord) → Option SimEntry}
    (hf : ∀ m x t, f (m, x) = some t → t.2.1 = m) (n : ℕ)
    (l : List (Emb × NodeRecord)) :
    List.Pairwise (fun a b : SimEntry => a.2.1 < b.2.1)
      ((enumFromN n l).filterMap f) ∧
    ∀ t ∈ (enumFromN n l).filterMap f, n ≤ t.2.1 := by
  induction l generalizing n with
  | nil => simp [enumFromN]
  | cons x xs ih =>
    rw [enumFromN, List.filterMap_cons]
    cases hfx : f (n, x) with
    | none =>
      refine ⟨(ih (n + 1)).1, ?_⟩
      intro t ht
      exact le_trans (Nat.le_succ n) ((ih (n + 1)).2 t ht)
    | some t0 =>
      have ht0 : t0.2.1 = n := hf n x t0 hfx
      refine ⟨List.pairwise_cons.mpr ⟨?_, (ih (n + 1)).1⟩, ?_⟩
      · intro b hb
        have := (ih (n + 1)).2 b hb
        omega
      · intro t ht
        rcases List.mem_cons.mp ht with h | h
        · rw [h]; omega
        · have := (ih (n + 1)).2 t h
          omega

/-- The ranker output is `rankOrder`-pairwise: scores non-increasing and,
for equal scores, original candidate indices increasing. -/
theorem find_top_matches_pairwise (target : Emb) (cembs : List Emb)
    (cdata : List NodeRecord) (top_n : ℕ) (thr : ℝ) :
    List.Pairwise rankOrder (find_top_matches target cembs cdata top_n thr) := by
  simp only [find_top_matches]
  apply List.Pairwise.sublist (List.take_sublist _ _)
  apply sortDescBy_pairwise
  refine (filterMap_enumFromN_idx ?_ 0 (cembs.zip cdata)).1
  intro m x t hft
  match hv : x.1 with
  | none => rw [hv] at hft; simp at hft
  | some v =>
    rw [hv] at hft
    simp only at hft
    by_cases hc : calculate_similarity target (some v) ≥ thr
    · rw [if_pos hc] at hft
      injection hft with hft
      rw [← hft]
    · rw [if_neg hc] at hft
      exact absurd hft (by simp)

/-! ### Lemmas about the validator -/

theorem bind_ok_iff {x : Except String α} {f : α → Except String β} {b : β} :
    (x >>= f) = Except.ok b ↔ ∃ a, x = Except.ok a ∧ f a = Except.ok b := by
  cases x with
  | error e => simp
  | ok a => simp

theorem mapExcept_ok_of_forall {f : α → Except String β} {l : List α}
    (h : ∀ a ∈ l, ∃ b, f a = Except.ok b) :
    ∃ bs, mapExcept f l = Except.ok bs ∧
      List.Forall₂ (fun a b => f a = Except.ok b) l bs := by
  induction l with
  | nil => exact ⟨[], rfl, List.Forall₂.nil⟩
  | cons x xs ih =>
    obtain ⟨b, hb⟩ := h x (List.mem_cons_self x xs)
    obtain ⟨bs, hbs, hf⟩ := ih (fun a ha => h a (List.mem_cons_of_mem x ha))
    exact ⟨b :: bs, by simp [mapExcept, hb, hbs], List.Forall₂.cons hb hf⟩

theorem forall₂_get? {R : α → β → Prop} {l1 : List α} {l2 : List β}
    (h : List.Forall₂ R l1 l2) :
    ∀ k a b, l1.get? k = some a → l2.get? k = some b → R a b := by
  induction h with
  | nil => intro k a b ha; simp at ha
  | cons hr _ ih =>
    intro k a b ha hb
    cases k with
    | zero =>
      simp only [List.get?_cons_zero, Option.some.injEq] at ha hb
      rw [← ha, ← hb]; exact hr
    | succ m =>
      simp only [List.get?_cons_succ] at ha hb
      exact ih m a b ha hb

theorem forall₂_mem_right {R : α → β → Prop} {l1 : List α} {l2 : List β}
    (h : List.Forall₂ R l1 l2) {b : β} (hb : b ∈ l2) : ∃ a ∈ l1, R a b := by
  induction h with
  | nil => simp at hb
  | cons hr _ ih =>
    rcases List.mem_cons.mp hb with hb | hb
    · exact ⟨_, List.mem_cons_self _ _, hb ▸ hr⟩
    · obtain ⟨a, ha, har⟩ := ih hb
      exact ⟨a, List.mem_cons_of_mem _ ha, har⟩

/-- Shape of a successful record validation: the result copies the root key
and name, the current-parent score is the similarity of the two embeddings
at the record index, and the verdict fields are the threshold comparison. -/
theorem validateItem_ok {data : List NodeRecord} {embs : Embeddings} {thr : ℝ}
    {idx : ℕ} {item : NodeRecord} {r : ValidationResult}
    (h : validateItem data embs thr idx item = Except.ok r) :
    ∃ re pe sugg,
      getEmb embs.root idx = Except.ok re ∧ getEmb embs.parent idx = Except.ok pe ∧
      r = { root_key := item.root_key
            root_name := item.root_name
            current_parent := ⟨item.parnet_key, item.parent_name, calculate_similarity re pe⟩
            suggested_parents := sugg
            validation := if calculate_similarity re pe ≥ thr then "VALID" else "INVALID"
            validation_status := if calculate_similarity re pe ≥ thr then "PASS" else "FAIL" } := by
  simp only [validateItem, bind_ok_iff, pure_eq_ok, Except.ok.injEq] at h
  obtain ⟨re, hre, pe, hpe, cembs, hce, sugg, hs, hr⟩ := h
  exact ⟨re, pe, sugg, hre, hpe, hr.symm⟩

theorem validateItem_ok_props {data : List NodeRecord} {embs : Embeddings}
    {thr : ℝ} {idx : ℕ} {item : NodeRecord} {r : ValidationResult}
    (h : validateItem data embs thr idx item = Except.ok r) :
    r.root_key = item.root_key ∧ r.root_name = item.root_name ∧
    (r.validation = "VALID" ↔ r.current_parent.similarity_score ≥ thr) ∧
    (r.validation = "VALID" ∨ r.validation = "INVALID") ∧
    (r.validation_status = "PASS" ↔ r.validation = "VALID") ∧
    (r.validation_status = "FAIL" ↔ r.validation = "INVALID") := by
  obtain ⟨re, pe, sugg, _, _, hr⟩ := validateItem_ok h
  subst hr
  by_cases hge : calculate_similarity re pe ≥ thr
  · rw [if_pos hge]
    refine ⟨rfl, rfl, ?_, Or.inl rfl, ?_, ?_⟩ <;> simp [if_pos hge, hge]
  · rw [if_neg hge]
    refine ⟨rfl, rfl, ?_, Or.inr rfl, ?_, ?_⟩ <;> simp [if_neg hge, hge]

/-- The loop correspondence: on a success, the result list matches the
parent-bearing sublist of the processed entries one-to-one and in order. -/
theorem validateAux_ok_forall₂ {data : List NodeRecord} {embs : Embeddings}
    {thr : ℝ} {l : List (ℕ × NodeRecord)} {results : List ValidationResult}
    (h : validateAux data embs thr l = Except.ok results) :
    List.Forall₂ (fun p r => validateItem data embs thr p.1 p.2 = Except.ok r)
      (l.filter (fun p => hasParent p.2)) results := by
  induction l generalizing results with
  | nil =>
    simp only [validateAux, Except.ok.injEq] at h
    rw [← h]
    simp
  | cons p rest ih =>
    obtain ⟨idx, item⟩ := p
    simp only [validateAux] at h
    by_cases hp : hasParent item = true
    · rw [if_pos hp] at h
      simp only [bind_ok_iff, pure_eq_ok, Except.ok.injEq] at h
      obtain ⟨r, hr, rs, hrs, hres⟩ := h
      rw [← hres]
      rw [List.filter_cons_of_pos (by simpa using hp)]
      exact List.Forall₂.cons hr (ih hrs)
    · rw [if_neg hp] at h
      rw [List.filter_cons_of_neg (by simpa using hp)]
      exact ih h

/-- Length of the parent-bearing filter is unchanged by enumeration. -/
theorem filter_enumFromN_length (n : ℕ) (l : List NodeRecord) :
    ((enumFromN n l).filter (fun p => hasParent p.2)).length =
      (l.filter (fun item => hasParent item)).length := by
  induction l generalizing n with
  | nil => simp [enumFromN]
  | cons x xs ih =>
    rw [enumFromN]
    by_cases hx : hasParent x = true
    · rw [List.filter_cons_of_pos (by simpa using hx),
        List.filter_cons_of_pos (by simpa using hx)]
      simp [ih]
    · rw [List.filter_cons_of_neg (by simpa using hx),
        List.filter_cons_of_neg (by simpa using hx)]
      exact ih (n + 1)

/-! ### Claim theorems (first group) -/

/-- C3: every emitted validation result has `validation = "VALID"` exactly
when its current-parent similarity score is at least the threshold
(otherwise `"INVALID"`), and `validation_status` is `"PASS"` exactly when
`validation` is `"VALID"` and `"FAIL"` exactly when it is `"INVALID"`. -/
theorem C3_verdict_matches_threshold (data : List NodeRecord) (embs : Embeddings)
    (thr : ℝ) (results : List ValidationResult) (r : ValidationResult)
    (hok : validate_relationships data embs thr = Except.ok results)
    (hr : r ∈ results) :
    (r.validation = "VALID" ↔ r.current_parent.similarity_score ≥ thr) ∧
    (r.validation = "VALID" ∨ r.validation = "INVALID") ∧
    (r.validation_status = "PASS" ↔ r.validation = "VALID") ∧
    (r.validation_status = "FAIL" ↔ r.validation = "INVALID") := by
  rw [validate_relationships] at hok
  obtain ⟨p, _, hvi⟩ := forall₂_mem_right (validateAux_ok_forall₂ hok) hr
  obtain ⟨_, _, h1, h2, h3, h4⟩ := validateItem_ok_props hvi
  exact ⟨h1, h2, h3, h4⟩

/-- C4: the ranker returns at most `top_n` entries, every returned score is
at least the threshold, the output is the empty list (not an error) when no
candidate embedding scores at or above the threshold, and `top_n = 0` gives
the empty list regardless of scores. -/
theorem C4_ranker_bounds (target : Emb) (cembs : List Emb)
    (cdata : List NodeRecord) (top_n : ℕ) (thr : ℝ) :
    (find_top_matches target cembs cdata top_n thr).length ≤ top_n ∧
    (∀ t ∈ find_top_matches target cembs cdata top_n thr, t.1 ≥ thr) ∧
    ((∀ e ∈ cembs, calculate_similarity target e < thr) →
      find_top_matches target cembs cdata top_n thr = []) ∧
    find_top_matches target cembs cdata 0 thr = [] := by
  refine ⟨find_top_matches_length_le target cembs cdata top_n thr, ?_,
    find_top_matches_eq_nil_of_below,
    find_top_matches_top_n_zero target cembs cdata thr⟩
  intro t ht
  obtain ⟨v, _, _, _, hge⟩ := find_top_matches_mem ht
  exact hge

/-- C5: the ranker output is sorted non-increasing by score; entries with
exactly equal scores keep their original candidate order (their carried
candidate indices increase), and the ranker is deterministic: the same
input yields the same output. -/
theorem C5_ranker_sorted_and_stable (target : Emb) (cembs : List Emb)
    (cdata : List NodeRecord) (top_n : ℕ) (thr : ℝ) :
    List.Pairwise (fun a b : SimEntry => b.1 ≤ a.1 ∧ (a.1 = b.1 → a.2.1 < b.2.1))
      (find_top_matches target cembs cdata top_n thr) ∧
    find_top_matches target cembs cdata top_n thr =
      find_top_matches target cembs cdata top_n thr := by
  refine ⟨(find_top_matches_pairwise target cembs cdata top_n thr).imp ?_, rfl⟩
  intro a b hab
  rcases hab with hlt | ⟨heq, hidx⟩
  · exact ⟨le_of_lt hlt, fun heq => absurd hlt (by rw [heq]; exact lt_irrefl _)⟩
  · exact ⟨le_of_eq heq.symm, fun _ => hidx⟩

/-- C6: on a successful run the validator emits exactly one result per
parent-bearing record (records with absent or empty `parent_name` are
skipped), and the candidate pool of index `idx` is exactly the set of
indices `j` distinct from `idx` whose record has a non-empty `parent_name`;
in particular no index is its own candidate. -/
theorem C6_skip_and_candidate_pool (data : List NodeRecord) (embs : Embeddings)
    (thr : ℝ) (results : List ValidationResult)
    (hok : validate_relationships data embs thr = Except.ok results) :
    results.length = (data.filter (fun item => hasParent item)).length ∧
    (∀ idx j, j ∈ candidateIndices data idx ↔
      (j ≠ idx ∧ ∃ item, data.get? j = some item ∧ hasParent item = true)) ∧
    (∀ idx, idx ∉ candidateIndices data idx) := by
  have hpool : ∀ idx j, j ∈ candidateIndices data idx ↔
      (j ≠ idx ∧ ∃ item, data.get? j = some item ∧ hasParent item = true) := by
    intro idx j
    rw [candidateIndices, List.mem_map]
    constructor
    · rintro ⟨p, hp, hpj⟩
      rw [candidates, List.mem_filter] at hp
      obtain ⟨hpe, hcond⟩ := hp
      rw [mem_enumerate_iff] at hpe
      rw [Bool.and_eq_true, bne_iff_ne] at hcond
      exact ⟨hpj ▸ hcond.2, p.2, hpj ▸ hpe, hcond.1⟩
    · rintro ⟨hne, item, hget, hpar⟩
      refine ⟨(j, item), ?_, rfl⟩
      rw [candidates, List.mem_filter, mem_enumerate_iff]
      refine ⟨hget, ?_⟩
      rw [Bool.and_eq_true, bne_iff_ne]
      exact ⟨hpar, hne⟩
  refine ⟨?_, hpool, ?_⟩
  · rw [validate_relationships] at hok
    have hlen := (validateAux_ok_forall₂ hok).length_eq
    rw [← hlen, enumerate, filter_enumFromN_length]
  · intro idx hmem
    exact ((hpool idx idx).mp hmem).1 rfl

/-- C10: on a successful run the results appear in input order, one per
parent-bearing record: the k-th result corresponds to the k-th
parent-bearing record of the enumerated input, and its `root_key` and
`root_name` are copied unchanged from that record. -/
theorem C10_order_preserved_and_fields_copied (data : List NodeRecord)
    (embs : Embeddings) (thr : ℝ) (results : List ValidationResult)
    (hok : validate_relationships data embs thr = Except.ok results) :
    results.length = ((enumerate data).filter (fun p => hasParent p.2)).length ∧
    ∀ k p r, ((enumerate data).filter (fun p => hasParent p.2)).get? k = some p →
      results.get? k = some r →
      r.root_key = p.2.root_key ∧ r.root_name = p.2.root_name := by
  rw [validate_relationships] at hok
  have hf := validateAux_ok_forall₂ hok
  refine ⟨hf.length_eq.symm, ?_⟩
  intro k p r hp hr
  have hvi := forall₂_get? hf k p r hp hr
  obtain ⟨h1, h2, _⟩ := validateItem_ok_props hvi
  exact ⟨h1, h2⟩

/-! ### Suggestion construction helpers -/

theorem calculate_similarity_right_none (e : Emb) :
    calculate_similarity e none = 0 := by
  cases e <;> rfl

theorem mkSuggestion_of_get {cand : List NodeRecord} {t : SimEntry}
    (h : cand.get? t.2.1 = some t.2.2) :
    mkSuggestion cand t = Except.ok ⟨t.2.2.parnet_key, t.2.2.parent_name, t.1⟩ := by
  simp only [mkSuggestion, h]

theorem mkSuggestion_ok_of_ftm {target : Emb} {cembs : List Emb}
    {cdata : List NodeRecord} {top_n : ℕ} {thr : ℝ} (t : SimEntry)
    (ht : t ∈ find_top_matches target cembs cdata top_n thr) :
    ∃ s, mkSuggestion cdata t = Except.ok s := by
  obtain ⟨v, _, hc, _, _⟩ := find_top_matches_mem ht
  exact ⟨_, mkSuggestion_of_get hc⟩

/-- Membership in the candidate pool of `idx`: exactly the other indices
whose record is present and parent-bearing. -/
theorem mem_candidateIndices {data : List NodeRecord} {idx j : ℕ} :
    j ∈ candidateIndices data idx ↔
      (j ≠ idx ∧ ∃ item, data.get? j = some item ∧ hasParent item = true) := by
  rw [candidateIndices, List.mem_map]
  constructor
  · rintro ⟨p, hp, hpj⟩
    rw [candidates, List.mem_filter] at hp
    obtain ⟨hpe, hcond⟩ := hp
    rw [mem_enumerate_iff] at hpe
    rw [Bool.and_eq_true, bne_iff_ne] at hcond
    exact ⟨hpj ▸ hcond.2, p.2, hpj ▸ hpe, hcond.1⟩
  · rintro ⟨hne, item, hget, hpar⟩
    refine ⟨(j, item), ?_, rfl⟩
    rw [candidates, List.mem_filter, mem_enumerate_iff]
    refine ⟨hget, ?_⟩
    rw [Bool.and_eq_true, bne_iff_ne]
    exact ⟨hpar, hne⟩

/-! ### Concrete sample data for the witnesses -/

/-- A single parent-bearing record. -/
def sampleRecord : NodeRecord :=
  { root_key := some "R1"
    root_name := some "Node R1"
    root_description := some "a description"
    parnet_key := some "P1"
    parent_name := some "Parent R1"
    parent_short_summary := some "a summary" }

def sampleData : List NodeRecord := [sampleRecord]

def sampleEmbs : Embeddings := ⟨[some [1]], [some [1]]⟩

/-- Self-similarity of the one-dimensional vector `[1]` is `1`. -/
theorem cs_one_one : calculate_similarity (some [(1 : ℚ)]) (some [(1 : ℚ)]) = 1 := by
  rw [calculate_similarity_some]
  exact cosineSim_self_of_normSq_ne_zero _ (by norm_num [normSq, dotQ])

/-- The expected result of validating `sampleData` at threshold `0.6`. -/
def sampleResult : ValidationResult :=
  { root_key := some "R1"
    root_name := some "Node R1"
    current_parent := ⟨some "P1", some "Parent R1", 1⟩
    suggested_parents := []
    validation := "VALID"
    validation_status := "PASS" }

theorem sample_eval :
    validate_relationships sampleData sampleEmbs 0.6 = Except.ok [sampleResult] := by
  simp only [validate_relationships, sampleData, enumerate, enumFromN, validateAux,
    validateItem, sampleEmbs, getEmb, List.get?_cons_zero, candidates, List.filter_cons,
    List.filter_nil, hasParent, sampleRecord, mapExcept, find_top_matches,
    find_top_matches_default_top_n, List.map_cons, List.map_nil, List.zip_nil_right,
    List.filterMap_nil, sortDescBy, List.foldl_nil, List.take_nil, mkSuggestion,
    ok_bind, error_bind, pure_eq_ok, cs_one_one, sampleResult,
    (show ((1 : ℝ) ≥ 0.6) by norm_num)]
  simp

/-- The expected result of validating `sampleData` at threshold `2`. -/
def sampleResultStrict : ValidationResult :=
  { root_key := some "R1"
    root_name := some "Node R1"
    current_parent := ⟨some "P1", some "Parent R1", 1⟩
    suggested_parents := []
    validation := "INVALID"
    validation_status := "FAIL" }

theorem sample_eval_strict :
    validate_relationships sampleData sampleEmbs 2 = Except.ok [sampleResultStrict] := by
  simp only [validate_relationships, sampleData, enumerate, enumFromN, validateAux,
    validateItem, sampleEmbs, getEmb, List.get?_cons_zero, candidates, List.filter_cons,
    List.filter_nil, hasParent, sampleRecord, mapExcept, find_top_matches,
    find_top_matches_default_top_n, List.map_cons, List.map_nil, List.zip_nil_right,
    List.filterMap_nil, sortDescBy, List.foldl_nil, List.take_nil, mkSuggestion,
    ok_bind, error_bind, pure_eq_ok, cs_one_one, sampleResultStrict,
    (show ¬((1 : ℝ) ≥ 2) by norm_num)]
  simp

/-! ### Claim theorems (second group) -/

/-- C2: the primary validator (`validator.py`) does not satisfy the
never-abort contract: on the structurally valid one-record dataset
`sampleData` (a well-formed sequence with a parent-bearing record and a
complete embedding table), its `validate_relationships` reaches the call to
the missing `find_best_matches` attribute and aborts with an
`AttributeError` instead of returning a result sequence. -/
theorem C2_v1_aborts_on_valid_input :
    validate_relationships_v1 sampleData sampleEmbs =
      Except.error find_best_matches_error := by
  simp only [validate_relationships_v1, sampleData, enumerate, enumFromN, validateAuxV1,
    validateItemV1, sampleEmbs, getEmb, List.get?_cons_zero, candidates, List.filter_cons,
    List.filter_nil, hasParent, sampleRecord, mapExcept,
    ok_bind, error_bind, pure_eq_ok]
  simp

/-- C7: amended similarity-scorer contract: for every vector of nonzero
norm, the score of the vector with itself is exactly `1`; the score is `0`
whenever either argument is absent; and at a zero vector the guarded
computation returns `0` (never a division error) — so self-similarity `1`
holds only for nonzero vectors. -/
theorem C7_scorer_contract (v : Vec) (e : Emb) :
    (normSq v ≠ 0 → calculate_similarity (some v) (some v) = 1) ∧
    calculate_similarity (some v) none = 0 ∧
    calculate_similarity none e = 0 ∧
    (normSq v = 0 → calculate_similarity (some v) (some v) = 0) := by
  refine ⟨fun h => ?_, calculate_similarity_none_right v,
    calculate_similarity_none_left e, fun h => ?_⟩
  · rw [calculate_similarity_some]
    exact cosineSim_self_of_normSq_ne_zero v h
  · rw [calculate_similarity_some]
    exact cosineSim_self_of_normSq_eq_zero v h

/-- C7 counterexample: at the zero vector `[0]` the scorer returns `0`, not
`1`, so the claim as stated (self-similarity `1` for every vector) fails. -/
theorem C7_counterexample :
    ¬ (calculate_similarity (some [(0 : ℚ)]) (some [(0 : ℚ)]) = 1) := by
  rw [calculate_similarity_some,
    cosineSim_self_of_normSq_eq_zero [(0 : ℚ)] (by norm_num [normSq, dotQ])]
  norm_num

/-- C7 witness: the amended contract evaluated at the nonzero vector
`[3, 4]`, at absent embeddings, and at the zero vector `[0]`. -/
theorem C7_scorer_contract_witness :
    (normSq [(3 : ℚ), 4] ≠ 0 ∧
      calculate_similarity (some [(3 : ℚ), 4]) (some [(3 : ℚ), 4]) = 1) ∧
    calculate_similarity (some [(3 : ℚ), 4]) none = 0 ∧
    calculate_similarity none none = 0 ∧
    (normSq [(0 : ℚ)] = 0 ∧
      calculate_similarity (some [(0 : ℚ)]) (some [(0 : ℚ)]) = 0) := by
  have h34 : normSq [(3 : ℚ), 4] ≠ 0 := by norm_num [normSq, dotQ]
  have h0 : normSq [(0 : ℚ)] = 0 := by norm_num [normSq, dotQ]
  exact ⟨⟨h34, (C7_scorer_contract [(3 : ℚ), 4] none).1 h34⟩,
    (C7_scorer_contract [(3 : ℚ), 4] none).2.1,
    (C7_scorer_contract [(0 : ℚ)] none).2.2.1,
    ⟨h0, (C7_scorer_contract [(0 : ℚ)] none).2.2.2 h0⟩⟩

/-- C9 counterexample: the ranker's per-invocation suggestion threshold
defaults to `0.6`, not the documented `0.65`. -/
theorem C9_counterexample :
    find_top_matches_default_threshold = 3 / 5 ∧
      ¬ (find_top_matches_default_threshold = 0.65) := by
  constructor <;> norm_num [find_top_matches_default_threshold]

/-- C9: amended configuration contract: the config constants are `0.65`
(similarity threshold) and `3` (max suggestions); the ranker defaults are
`top_n = 3` and `threshold = 0.6`; the operative `validate_relationships`
defaults its single similarity threshold to `0.6`, uses it for both the
verdict and the suggestions, and a caller-supplied value does override it
(the same dataset is VALID at threshold `0.6` and INVALID at `2`). -/
theorem C9_configuration_defaults :
    SIMILARITY_THRESHOLD = 0.65 ∧ TOP_N_SUGGESTIONS = 3 ∧
    find_top_matches_default_top_n = 3 ∧
    find_top_matches_default_threshold = 0.6 ∧
    validate_default_similarity_threshold = 0.6 ∧
    validate_relationships sampleData sampleEmbs 0.6 = Except.ok [sampleResult] ∧
    sampleResult.validation = "VALID" ∧
    validate_relationships sampleData sampleEmbs 2 = Except.ok [sampleResultStrict] ∧
    sampleResultStrict.validation = "INVALID" :=
  ⟨rfl, rfl, rfl, rfl, rfl, sample_eval, rfl, sample_eval_strict, rfl⟩

/-! ### A dataset with a missing parent embedding (for C8) -/

def cexA : NodeRecord :=
  { root_key := some "A"
    root_name := some "Node A"
    root_description := some "da"
    parnet_key := some "KA"
    parent_name := some "PA"
    parent_short_summary := some "sa" }

def cexB : NodeRecord :=
  { root_key := some "B"
    root_name := some "Node B"
    root_description := some "db"
    parnet_key := some "KB"
    parent_name := some "PB"
    parent_short_summary := some "sb" }

def cexData : List NodeRecord := [cexA, cexB]

/-- Both records have root embeddings; the parent embedding of the second
record is missing (`None`). -/
def cexEmbs : Embeddings := ⟨[some [1], some [1]], [some [1], none]⟩

def cexResA : ValidationResult :=
  { root_key := some "A"
    root_name := some "Node A"
    current_parent := ⟨some "KA", some "PA", 1⟩
    suggested_parents := []
    validation := "VALID"
    validation_status := "PASS" }

def cexResB : ValidationResult :=
  { root_key := some "B"
    root_name := some "Node B"
    current_parent := ⟨some "KB", some "PB", 0⟩
    suggested_parents := [⟨some "KA", some "PA", 1⟩]
    validation := "VALID"
    validation_status := "PASS" }

def cexResB06 : ValidationResult :=
  { root_key := some "B"
    root_name := some "Node B"
    current_parent := ⟨some "KB", some "PB", 0⟩
    suggested_parents := [⟨some "KA", some "PA", 1⟩]
    validation := "INVALID"
    validation_status := "FAIL" }

theorem cex_item0 :
    validateItem cexData cexEmbs 0 0 cexA = Except.ok cexResA := by
  simp only [validateItem, cexEmbs, getEmb, List.get?_cons_zero, List.get?_cons_succ,
    candidates, enumerate, enumFromN, cexData, List.filter_cons, List.filter_nil,
    hasParent, cexA, cexB, mapExcept, find_top_matches, find_top_matches_default_top_n,
    List.map_cons, List.map_nil, List.zip_cons_cons, List.zip_nil_right,
    List.filterMap_cons, List.filterMap_nil, sortDescBy, List.foldl_cons, List.foldl_nil,
    insertDesc, List.take_nil, mkSuggestion, ok_bind, error_bind, pure_eq_ok,
    cs_one_one, cexResA, (show ((1 : ℝ) ≥ 0) by norm_num)]
  simp

theorem cex_item1 :
    validateItem cexData cexEmbs 0 1 cexB = Except.ok cexResB := by
  simp only [validateItem, cexEmbs, getEmb, List.get?_cons_zero, List.get?_cons_succ,
    candidates, enumerate, enumFromN, cexData, List.filter_cons, List.filter_nil,
    hasParent, cexA, cexB, mapExcept, find_top_matches, find_top_matches_default_top_n,
    List.map_cons, List.map_nil, List.zip_cons_cons, List.zip_nil_right,
    List.filterMap_cons, List.filterMap_nil, sortDescBy, List.foldl_cons, List.foldl_nil,
    insertDesc, List.take_nil, mkSuggestion, ok_bind, error_bind, pure_eq_ok,
    cs_one_one, calculate_similarity_right_none, cexResB,
    (show ((1 : ℝ) ≥ 0) by norm_num), (show ((0 : ℝ) ≥ 0) by norm_num)]
  simp [List.take]

theorem cex_item1_06 :
    validateItem cexData cexEmbs 0.6 1 cexB = Except.ok cexResB06 := by
  simp only [validateItem, cexEmbs, getEmb, List.get?_cons_zero, List.get?_cons_succ,
    candidates, enumerate, enumFromN, cexData, List.filter_cons, List.filter_nil,
    hasParent, cexA, cexB, mapExcept, find_top_matches, find_top_matches_default_top_n,
    List.map_cons, List.map_nil, List.zip_cons_cons, List.zip_nil_right,
    List.filterMap_cons, List.filterMap_nil, sortDescBy, List.foldl_cons, List.foldl_nil,
    insertDesc, List.take_nil, mkSuggestion, ok_bind, error_bind, pure_eq_ok,
    cs_one_one, calculate_similarity_right_none, cexResB06,
    (show ((1 : ℝ) ≥ 0.6) by norm_num), (show ¬((0 : ℝ) ≥ 0.6) by norm_num)]
  simp [List.take]

theorem cex_eval :
    validate_relationships cexData cexEmbs 0 = Except.ok [cexResA, cexResB] := by
  simp only [validate_relationships,
    (show enumerate cexData = [(0, cexA), (1, cexB)] from rfl), validateAux,
    (show hasParent cexA = true from rfl), (show hasParent cexB = true from rfl),
    cex_item0, cex_item1, ok_bind, pure_eq_ok]
  rw [cex_item1]
  rfl

/-- C8 counterexample: record `cexB` has a non-empty `parent_name` but its
parent embedding is missing; with suggestion threshold `0` (i.e. at or
below `0.0`) it is in the candidate pool of the other record and yet does
not appear among that record's suggestions — the ranker skips candidates
with missing embeddings entirely, so the claim that such a candidate
"would still appear in rankings" at threshold ≤ 0 is false. -/
theorem C8_counterexample :
    hasParent cexB = true ∧ cexEmbs.parent.get? 1 = some none ∧
    1 ∈ candidateIndices cexData 0 ∧
    validate_relationships cexData cexEmbs 0 = Except.ok [cexResA, cexResB] ∧
    cexResA.suggested_parents = [] := by
  refine ⟨rfl, rfl, ?_, cex_eval, rfl⟩
  rw [mem_candidateIndices]
  exact ⟨by norm_num, cexB, rfl, rfl⟩

/-- C8: amended missing-embedding behaviour: a validated record whose
parent embedding is missing gets current score exactly `0`, is marked
INVALID whenever the threshold is positive, and its membership in other
records' candidate pools depends only on its `parent_name`; however the
ranker skips any candidate whose embedding is missing, so such a record
never appears in any ranking, whatever the suggestion threshold. -/
theorem C8_missing_embedding_behaviour (data : List NodeRecord)
    (embs : Embeddings) (thr : ℝ) (idx : ℕ) (item : NodeRecord)
    (r : ValidationResult) (hitem : data.get? idx = some item)
    (hpe : embs.parent.get? idx = some none)
    (hok : validateItem data embs thr idx item = Except.ok r) :
    r.current_parent.similarity_score = 0 ∧
    (0 < thr → r.validation = "INVALID") ∧
    (∀ j, idx ∈ candidateIndices data j ↔ (idx ≠ j ∧ hasParent item = true)) ∧
    (∀ (target : Emb) (cembs : List Emb) (cdata : List NodeRecord) (top_n : ℕ)
      (t : ℝ) (k : ℕ), cembs.get? k = some (none : Emb) →
      ∀ x ∈ find_top_matches target cembs cdata top_n t, x.2.1 ≠ k) := by
  obtain ⟨re, pe, sugg, hre, hpe', hr⟩ := validateItem_ok hok
  have hpen : pe = none := by
    simp only [getEmb, hpe] at hpe'
    exact (Except.ok.injEq .. ▸ hpe').symm
  subst hpen
  subst hr
  refine ⟨calculate_similarity_right_none re, ?_, ?_, ?_⟩
  · intro hthr
    have h0 : ¬ (calculate_similarity re none ≥ thr) := by
      rw [calculate_similarity_right_none re]
      exact not_le.mpr hthr
    simp only [if_neg h0]
  · intro j
    rw [mem_candidateIndices]
    constructor
    · rintro ⟨hne, item', hg, hp⟩
      rw [hitem, Option.some.injEq] at hg
      exact ⟨hne, hg ▸ hp⟩
    · rintro ⟨hne, hp⟩
      exact ⟨hne, item, hitem, hp⟩
  · intro target cembs cdata top_n t k hk x hx heq
    obtain ⟨v, hv, _, _, _⟩ := find_top_matches_mem hx
    rw [heq, hk] at hv
    simp at hv

/-- C8 witness: the amended behaviour evaluated on the concrete dataset
whose second record has a missing parent embedding, at threshold `0.6`. -/
theorem C8_missing_embedding_witness :
    cexData.get? 1 = some cexB ∧ cexEmbs.parent.get? 1 = some none ∧
    validateItem cexData cexEmbs 0.6 1 cexB = Except.ok cexResB06 ∧
    cexResB06.current_parent.similarity_score = 0 ∧
    cexResB06.validation = "INVALID" ∧
    (1 ∈ candidateIndices cexData 0 ↔ (1 ≠ 0 ∧ hasParent cexB = true)) := by
  have h := C8_missing_embedding_behaviour cexData cexEmbs 0.6 1 cexB cexResB06
    rfl rfl cex_item1_06
  exact ⟨rfl, rfl, cex_item1_06, h.1, h.2.1 (by norm_num), h.2.2.1 0⟩

/-! ### Scenario A vectors (for C1) -/

def vUnit : Vec := [1, 0, 0, 0]

/-- Cosine with `vUnit` is `9 / 10`. -/
def vNine : Vec := [9, 3, 3, 1]

/-- Cosine with `vUnit` is `3 / 10`. -/
def vThree : Vec := [3, 9, 3, 1]

theorem cs_unit_nine :
    calculate_similarity (some vUnit) (some vNine) = 0.9 := by
  rw [calculate_similarity_some,
    cosineSim_eval vUnit vNine 9 1 10
      (by norm_num [dotQ, vUnit, vNine])
      (by norm_num [normSq, dotQ, vUnit])
      (by norm_num [normSq, dotQ, vNine])
      (by norm_num) (by norm_num)]
  norm_num

theorem cs_unit_three :
    calculate_similarity (some vUnit) (some vThree) = 0.3 := by
  rw [calculate_similarity_some,
    cosineSim_eval vUnit vThree 3 1 10
      (by norm_num [dotQ, vUnit, vThree])
      (by norm_num [normSq, dotQ, vUnit])
      (by norm_num [normSq, dotQ, vThree])
      (by norm_num) (by norm_num)]
  norm_num

/-- C1: Scenario A. For any three records where the first two carry a
parent name and the third does not, with the first record's relationship
scoring `0.9` and the second scoring `0.3`, validation at threshold `0.6`
emits exactly two results: the first VALID/PASS, the second INVALID/FAIL;
the candidate pool of the second record is exactly the index of the first;
and whenever the second record's root embedding scores at least `0.6`
against the first record's parent embedding, the first record appears
among the second record's suggested parents. -/
theorem C1_scenario_a (A B C : NodeRecord) (ra pa rb pb rc pc : Emb)
    (hA : hasParent A = true) (hB : hasParent B = true) (hC : hasParent C = false)
    (h09 : calculate_similarity ra pa = 0.9)
    (h03 : calculate_similarity rb pb = 0.3) :
    ∃ rA rB,
      validate_relationships [A, B, C] ⟨[ra, rb, rc], [pa, pb, pc]⟩ 0.6 =
        Except.ok [rA, rB] ∧
      rA.validation = "VALID" ∧ rA.validation_status = "PASS" ∧
      rB.validation = "INVALID" ∧ rB.validation_status = "FAIL" ∧
      candidateIndices [A, B, C] 1 = [0] ∧
      (calculate_similarity rb pa ≥ 0.6 →
        ∃ s ∈ rB.suggested_parents,
          s.parent_key = A.parnet_key ∧ s.parent_name = A.parent_name) := by
  obtain ⟨va, hpav⟩ : ∃ v, pa = some v := by
    obtain ⟨a, b, _, h2⟩ := calculate_similarity_ne_zero ra pa (by rw [h09]; norm_num)
    exact ⟨b, h2⟩
  have hcand0 : candidates [A, B, C] 0 = [(1, B)] := by
    simp [candidates, enumerate, enumFromN, List.filter_cons, hA, hB, hC]
  have hcand1 : candidates [A, B, C] 1 = [(0, A)] := by
    simp [candidates, enumerate, enumFromN, List.filter_cons, hA, hB, hC]
  have hpool : candidateIndices [A, B, C] 1 = [0] := by
    rw [candidateIndices, hcand1]
    rfl
  have hallA : ∀ t ∈ find_top_matches ra [pb] [B] 3 0.6,
      ∃ s, mkSuggestion [B] t = Except.ok s :=
    fun t ht => mkSuggestion_ok_of_ftm t ht
  obtain ⟨suggA, hsuggA, _⟩ := mapExcept_ok_of_forall hallA
  have hitemA : validateItem [A, B, C] ⟨[ra, rb, rc], [pa, pb, pc]⟩ 0.6 0 A =
      Except.ok
        { root_key := A.root_key
          root_name := A.root_name
          current_parent := ⟨A.parnet_key, A.parent_name, 0.9⟩
          suggested_parents := suggA
          validation := "VALID"
          validation_status := "PASS" } := by
    simp only [validateItem, getEmb, List.get?_cons_zero, List.get?_cons_succ,
      hcand0, List.map_cons, List.map_nil, mapExcept,
      find_top_matches_default_top_n, h09, hsuggA,
      ok_bind, error_bind, pure_eq_ok, (show ((0.9 : ℝ) ≥ 0.6) by norm_num)]
    simp
  have hallB : ∀ t ∈ find_top_matches rb [pa] [A] 3 0.6,
      ∃ s, mkSuggestion [A] t = Except.ok s :=
    fun t ht => mkSuggestion_ok_of_ftm t ht
  obtain ⟨suggB, hsuggB, hfB⟩ := mapExcept_ok_of_forall hallB
  have hitemB : validateItem [A, B, C] ⟨[ra, rb, rc], [pa, pb, pc]⟩ 0.6 1 B =
      Except.ok
        { root_key := B.root_key
          root_name := B.root_name
          current_parent := ⟨B.parnet_key, B.parent_name, 0.3⟩
          suggested_parents := suggB
          validation := "INVALID"
          validation_status := "FAIL" } := by
    simp only [validateItem, getEmb, List.get?_cons_zero, List.get?_cons_succ,
      hcand1, List.map_cons, List.map_nil, mapExcept,
      find_top_matches_default_top_n, h03, hsuggB,
      ok_bind, error_bind, pure_eq_ok, (show ¬((0.3 : ℝ) ≥ 0.6) by norm_num)]
    simp
  have hmemB : calculate_similarity rb pa ≥ 0.6 →
      ∃ s ∈ suggB, s.parent_key = A.parnet_key ∧ s.parent_name = A.parent_name := by
    intro hge
    rw [hpav] at hge
    have hftm : find_top_matches rb [pa] [A] 3 0.6 =
        [(calculate_similarity rb (some va), 0, A)] := by
      rw [hpav]
      simp only [find_top_matches, enumerate, enumFromN, List.zip_cons_cons,
        List.zip_nil_right, List.filterMap_cons, List.filterMap_nil,
        if_pos hge, sortDescBy, List.foldl_cons, List.foldl_nil, insertDesc]
      rfl
    rw [hftm] at hfB
    cases hfB with
    | cons hs htail =>
      cases htail
      have hmk : mkSuggestion [A] (calculate_similarity rb (some va), 0, A) =
          Except.ok ⟨A.parnet_key, A.parent_name, calculate_similarity rb (some va)⟩ := rfl
      rw [hmk, Except.ok.injEq] at hs
      exact ⟨_, List.mem_cons_self _ _, by rw [← hs], by rw [← hs]⟩
  refine ⟨{ root_key := A.root_key
            root_name := A.root_name
            current_parent := ⟨A.parnet_key, A.parent_name, 0.9⟩
            suggested_parents := suggA
            validation := "VALID"
            validation_status := "PASS" },
          { root_key := B.root_key
            root_name := B.root_name
            current_parent := ⟨B.parnet_key, B.parent_name, 0.3⟩
            suggested_parents := suggB
            validation := "INVALID"
            validation_status := "FAIL" },
          ?_, rfl, rfl, rfl, rfl, hpool, hmemB⟩
  simp only [validate_relationships, enumerate, enumFromN, validateAux,
    hA, hB, hC, hitemA, hitemB, ok_bind, pure_eq_ok]
  simp

/-! ### Scenario A concrete records (for the C1 witness) -/

def recA : NodeRecord :=
  { root_key := some "A"
    root_name := some "Node A"
    root_description := some "dA"
    parnet_key := some "KA"
    parent_name := some "B"
    parent_short_summary := some "sA" }

def recB : NodeRecord :=
  { root_key := some "B"
    root_name := some "Node B"
    root_description := some "dB"
    parnet_key := some "KB"
    parent_name := some "C"
    parent_short_summary := some "sB" }

def recC : NodeRecord :=
  { root_key := some "C"
    root_name := some "Node C"
    root_description := some "dC"
    parnet_key := some "KC"
    parent_name := none
    parent_short_summary := some "sC" }

/-- C1 witness: Scenario A instantiated with concrete records and concrete
rational embeddings whose cosines are exactly `0.9` and `0.3`. -/
theorem C1_scenario_a_witness :
    hasParent recA = true ∧ hasParent recB = true ∧ hasParent recC = false ∧
    calculate_similarity (some vUnit) (some vNine) = 0.9 ∧
    calculate_similarity (some vUnit) (some vThree) = 0.3 ∧
    (∃ rA rB,
      validate_relationships [recA, recB, recC]
          ⟨[some vUnit, some vUnit, some vUnit],
           [some vNine, some vThree, some vUnit]⟩ 0.6 =
        Except.ok [rA, rB] ∧
      rA.validation = "VALID" ∧ rA.validation_status = "PASS" ∧
      rB.validation = "INVALID" ∧ rB.validation_status = "FAIL" ∧
      candidateIndices [recA, recB, recC] 1 = [0] ∧
      (calculate_similarity (some vUnit) (some vNine) ≥ 0.6 →
        ∃ s ∈ rB.suggested_parents,
          s.parent_key = recA.parnet_key ∧ s.parent_name = recA.parent_name)) :=
  ⟨rfl, rfl, rfl, cs_unit_nine, cs_unit_three,
    C1_scenario_a recA recB recC (some vUnit) (some vNine) (some vUnit)
      (some vThree) (some vUnit) (some vUnit) rfl rfl rfl cs_unit_nine cs_unit_three⟩

/-- C3 witness: the verdict equivalences evaluated on the one-record sample
dataset at threshold `0.6`. -/
theorem C3_verdict_witness :
    validate_relationships sampleData sampleEmbs 0.6 = Except.ok [sampleResult] ∧
    ((sampleResult.validation = "VALID" ↔
        sampleResult.current_parent.similarity_score ≥ 0.6) ∧
      (sampleResult.validation = "VALID" ∨ sampleResult.validation = "INVALID") ∧
      (sampleResult.validation_status = "PASS" ↔ sampleResult.validation = "VALID") ∧
      (sampleResult.validation_status = "FAIL" ↔ sampleResult.validation = "INVALID")) :=
  ⟨sample_eval,
    C3_verdict_matches_threshold sampleData sampleEmbs 0.6 [sampleResult]
      sampleResult sample_eval (List.mem_cons_self _ _)⟩

/-- C4 witness: the ranker bounds evaluated at a concrete input where no
candidate clears the threshold `2`, with `top_n = 5`. -/
theorem C4_ranker_bounds_witness :
    (∀ e ∈ [some [(1 : ℚ)]], calculate_similarity (some [(1 : ℚ)]) e < 2) ∧
    find_top_matches (some [(1 : ℚ)]) [some [(1 : ℚ)]] [sampleRecord] 5 2 = [] := by
  have hb : ∀ e ∈ [some [(1 : ℚ)]], calculate_similarity (some [(1 : ℚ)]) e < 2 := by
    intro e he
    simp only [List.mem_singleton] at he
    rw [he, cs_one_one]
    norm_num
  exact ⟨hb,
    (C4_ranker_bounds (some [(1 : ℚ)]) [some [(1 : ℚ)]] [sampleRecord] 5 2).2.2.1 hb⟩

/-- C5 witness: sortedness, stability and determinism of the ranker
evaluated at a concrete input. -/
theorem C5_ranker_sorted_witness :
    List.Pairwise (fun a b : SimEntry => b.1 ≤ a.1 ∧ (a.1 = b.1 → a.2.1 < b.2.1))
      (find_top_matches (some [(1 : ℚ)]) [some [(1 : ℚ)]] [sampleRecord] 3 0.6) ∧
    find_top_matches (some [(1 : ℚ)]) [some [(1 : ℚ)]] [sampleRecord] 3 0.6 =
      find_top_matches (some [(1 : ℚ)]) [some [(1 : ℚ)]] [sampleRecord] 3 0.6 :=
  C5_ranker_sorted_and_stable (some [(1 : ℚ)]) [some [(1 : ℚ)]] [sampleRecord] 3 0.6

/-- C6 witness: skip behaviour and candidate-pool characterization
evaluated on the one-record sample dataset. -/
theorem C6_skip_witness :
    validate_relationships sampleData sampleEmbs 0.6 = Except.ok [sampleResult] ∧
    ([sampleResult].length =
        (sampleData.filter (fun item => hasParent item)).length ∧
      (∀ idx j, j ∈ candidateIndices sampleData idx ↔
        (j ≠ idx ∧ ∃ item, sampleData.get? j = some item ∧ hasParent item = true)) ∧
      (∀ idx, idx ∉ candidateIndices sampleData idx)) :=
  ⟨sample_eval,
    C6_skip_and_candidate_pool sampleData sampleEmbs 0.6 [sampleResult] sample_eval⟩

/-- C10 witness: order preservation and field copying evaluated on the
one-record sample dataset. -/
theorem C10_order_witness :
    validate_relationships sampleData sampleEmbs 0.6 = Except.ok [sampleResult] ∧
    ([sampleResult].length =
        ((enumerate sampleData).filter (fun p => hasParent p.2)).length ∧
      ∀ k p r,
        ((enumerate sampleData).filter (fun p => hasParent p.2)).get? k = some p →
        [sampleResult].get? k = some r →
        r.root_key = p.2.root_key ∧ r.root_name = p.2.root_name) :=
  ⟨sample_eval,
    C10_order_preserved_and_fields_copied sampleData sampleEmbs 0.6 [sampleResult]
      sample_eval⟩

end ValidateHierarchy
